import Mathlib

/-!
Verification of the agent transport and conversation-state layer of
`duckailabs/agents-python`.

Two agent variants are embedded:
 * `Market` — the polling agent `src/agents/market_sentiment/agent.py`
   (`MarketSentimentAgent`): periodic `GET /messages?since=<watermark>`,
   per-item parsing into `Message`, dispatch, watermark advance, and the
   OpenAI-backed responder `_process_message` with its per-peer
   conversation history.
 * `Node` — the streaming agent `src/agents/base_example/node.py`
   (`NodeAgent`): websocket pump loop, handler dispatch, reconnect
   behaviour, send path, handler registration tokens.

Timestamps (Python floats used only through comparison and `max`) are
modelled as exact rationals `ℚ`. Fallible Python operations are modelled
with `Option`/`Except`.
-/

namespace Market

/-- A parsed inbound message of the polling agent
(`market_sentiment/agent.py`, class `Message`, lines 12-16). -/
structure Message where
  from_agent_id : String
  content : String
  conversation_id : Option String
  timestamp : ℚ
deriving DecidableEq

/-- A raw JSON record as returned by `GET /messages`: each pydantic field
may be present or absent. `from_agent_id` and `content` are required by
the `Message` model; `conversation_id` and `timestamp` have defaults. -/
structure RawItem where
  from_agent_id : Option String
  content : Option String
  conversation_id : Option String
  timestamp : Option ℚ
deriving DecidableEq

/-- Construction `Message(**raw)` (pydantic validation).

The source declares `timestamp: float = time.time()` (line 16): the
default value is the *class-body* evaluation of `time.time()`, i.e. the
wall-clock time when the module was imported, shared by every later
construction. To make that visible the embedding takes both the
module-import time and the time at which this construction happens;
faithful to Python semantics, the `constructionTime` argument is never
consulted. A missing required field (`from_agent_id` or `content`) is a
`ValidationError`, modelled as `none`. -/
def mkMessage (importTime : ℚ) (constructionTime : ℚ) (r : RawItem) :
    Option Message :=
  match r.from_agent_id, r.content with
  | some f, some c => some ⟨f, c, r.conversation_id, r.timestamp.getD importTime⟩
  | _, _ => none

/-- One turn of stored conversation history
(`market_sentiment/agent.py`, class `ConversationMessage`, lines 18-20). -/
structure ConversationMessage where
  role : String
  content : String
deriving DecidableEq

/-- The Conversation Store: `self.conversation_history`, a Python dict
from peer id to a list of turns, embedded as an association list. -/
abbrev ConvStore := List (String × List ConversationMessage)

/-- Reading a peer's history; an absent key reads as the empty history. -/
def histOf (s : ConvStore) (p : String) : List ConversationMessage :=
  (s.lookup p).getD []

/-- Lazy initialization, lines 111-112 of `_process_message`:
`if message.from_agent_id not in self.conversation_history:
self.conversation_history[message.from_agent_id] = []`. -/
def initPeer (s : ConvStore) (p : String) : ConvStore :=
  if (s.lookup p).isSome then s else s ++ [(p, [])]

/-- Dict assignment `self.conversation_history[p] = h`
(here reached through the in-place `history.extend`, which mutates the
very list object the dict holds). -/
def setHist : ConvStore → String → List ConversationMessage → ConvStore
  | [], p, h => [(p, h)]
  | (q, hq) :: rest, p, h =>
      if q = p then (p, h) :: rest else (q, hq) :: setHist rest p h

/-- Outcome of the awaited OpenAI chat-completion call of
`_process_message`: the call may raise, or return a completion whose
`message.content` may be `None`. -/
inductive LLMResult where
  | raises
  | ok (content : Option String)
deriving DecidableEq

/-- Fallback returned by the `except` clause of `_process_message`
(line 159). -/
def errorFallback : String := "Sorry, I encountered an error processing your message."

/-- Fallback used when the completion content is falsy (line 144). -/
def emptyFallback : String := "Sorry, I couldn't process that request."

/-- The Responder `_process_message` (`market_sentiment/agent.py`,
lines 107-159), with the OpenAI call abstracted as `llm`. Returns the
updated Conversation Store and the reply string.

Control flow of the source: the whole body is wrapped in
`try/except Exception`, and the only fallible statement is the
completion call, so on a raise the store update is exactly the lazy
peer initialization already performed. On success the code runs
`history.extend([user turn, assistant turn])`, which mutates the list
object held by `self.conversation_history`, and then

  `if len(history) > 10: history = history[2:]`  (lines 153-154)

which only *rebinds the local name* `history` to a fresh sliced list:
the dict still holds the un-trimmed extended list, so the stored
history is the extended history with no trimming applied. -/
def process_message (store : ConvStore) (msg : Message) (llm : LLMResult) :
    ConvStore × String :=
  let store1 := initPeer store msg.from_agent_id
  match llm with
  | .raises => (store1, errorFallback)
  | .ok c =>
      let response := c.getD emptyFallback
      let history := histOf store1 msg.from_agent_id
      let history2 := history ++
        [⟨"user", msg.content⟩, ⟨"assistant", response⟩]
      (setHist store1 msg.from_agent_id history2, response)

/-- Driving `n` successful exchanges from the same peer through
`process_message` (each completion call succeeds and returns content). -/
def iterateProcess (store : ConvStore) (p : String) : Nat → ConvStore
  | 0 => store
  | n + 1 =>
      iterateProcess
        (process_message store ⟨p, "hi", none, 0⟩ (.ok (some "resp"))).1 p n

/-- The body of one poll cycle's `for message in messages` loop
(`_start_polling`, lines 73-79), given the module import time and the
watermark `self.last_message_timestamp` at entry. A `ValidationError`
from `Message(**message)` escapes the `for` loop into the cycle's
`except` clause, dropping the failing item and every item after it;
`handle_message` catches all of its own exceptions (lines 104-105), so
dispatch itself never aborts the loop, and after each dispatch the
watermark advances to `max(current, msg.timestamp)`. Returns the final
watermark and the messages dispatched, in order. -/
def processBatch (importTime : ℚ) (wm : ℚ) :
    List RawItem → ℚ × List Message
  | [] => (wm, [])
  | r :: rest =>
      match mkMessage importTime 0 r with
      | none => (wm, [])
      | some m =>
          let out := processBatch importTime (max wm m.timestamp) rest
          (out.1, m :: out.2)

/-- One full poll cycle of `_start_polling` (lines 64-83): `fetch` is
the outcome of the `GET /messages` request together with
`response.json()` — `none` when the request or the batch decode raises,
in which case the `except` clause skips the cycle with the watermark
untouched. -/
def pollCycle (importTime : ℚ) (wm : ℚ) (fetch : Option (List RawItem)) :
    ℚ × List Message :=
  match fetch with
  | none => (wm, [])
  | some items => processBatch importTime wm items

/-- The raw record a well-formed substrate response carries for a
message `m`: every field present. -/
def rawOf (m : Message) : RawItem :=
  ⟨some m.from_agent_id, some m.content, m.conversation_id, some m.timestamp⟩

end Market

namespace Node

/-- A parsed inbound message of the streaming agent
(`base_example/node.py`, class `Message`, lines 11-14). -/
structure NodeMessage where
  from_agent_id : String
  content : String
  conversation_id : Option String
deriving DecidableEq

/-- Outcome of invoking one registered handler on a message: the awaited
call either returns or raises. -/
inductive HandlerResult where
  | ok
  | raises
deriving DecidableEq

/-- The `for handler in self._message_handlers: await handler(message)`
loop inside `handle_message` (lines 89-90): handlers run sequentially
from the front of the list; the first raise escapes the loop. Returns
how many handlers were invoked (the handlers at positions
`0, ..., n-1`) and whether an exception escaped the loop. -/
def dispatchLoop : List HandlerResult → Nat × Bool
  | [] => (0, false)
  | .ok :: rest =>
      let out := dispatchLoop rest
      (out.1 + 1, out.2)
  | .raises :: _ => (1, true)

/-- The Dispatcher `NodeAgent.handle_message` (lines 83-93): the handler
loop runs inside `try/except Exception`, so whatever the loop does, no
exception reaches the caller (the Inbound Pump). Returns how many
handlers were invoked and whether an error propagated to the caller
(always `false`, by the `except` clause). -/
def handle_message (hs : List HandlerResult) : Nat × Bool :=
  ((dispatchLoop hs).1, false)

/-- What the blocking `self._websocket.recv()` (plus the frame handling
that follows it, lines 68-74) can produce in one pump iteration. -/
inductive RecvOutcome where
  | messageFrame (m : NodeMessage)
  | otherFrame
  | connectionClosed
  | recvError
deriving DecidableEq

/-- What one iteration of the pump loop does next. -/
inductive PumpAction where
  | exit
  | dispatch (m : NodeMessage)
  | noop
  | sleepReconnect (delaySeconds : Nat)
  | sleepContinue (delaySeconds : Nat)
deriving DecidableEq

/-- One iteration of `NodeAgent._handle_messages` (lines 64-81). The
loop guard `while self._running and self._websocket` reads the flags at
the *start* of the iteration; the body then blocks in `recv()`. Neither
`except` branch re-reads `self._running`: on
`websockets.exceptions.ConnectionClosed` the code unconditionally sleeps
5 seconds and calls `self._connect()`, and on any other exception it
sleeps 1 second and continues. `runningAtHandler` is the value the flag
has by the time the recv outcome is handled (it changes when `stop()`
runs during the blocking recv: `stop()` sets `_running = False` and
closes the socket, which is precisely what makes the pending `recv()`
raise `ConnectionClosed`); faithful to the source, it is not consulted. -/
def pumpIteration (runningAtGuard : Bool) (hasWsAtGuard : Bool)
    (runningAtHandler : Bool) (out : RecvOutcome) : PumpAction :=
  if runningAtGuard && hasWsAtGuard then
    match out with
    | .messageFrame m => .dispatch m
    | .otherFrame => .noop
    | .connectionClosed => .sleepReconnect 5
    | .recvError => .sleepContinue 1
  else .exit

/-- Fate of the pump task after the `except ConnectionClosed` branch has
slept and reached `await self._connect()`. -/
inductive PumpFate where
  | continues (onNewConnection : Bool)
  | terminatedWithError
deriving DecidableEq

/-- The reconnect step of the `except ConnectionClosed` branch
(lines 75-78). `_connect` (lines 46-62) re-raises every exception it
catches; an exception raised inside an `except` clause is not handled by
the sibling `except Exception` clause of the same `try`, so it escapes
the `while` loop and ends the `_handle_messages` task. On success a
fresh connection is stored and pumping continues. -/
def reconnectOutcome (connectSucceeds : Bool) : PumpFate :=
  if connectSucceeds then .continues true else .terminatedWithError

/-- Errors `NodeAgent.send_message` can surface to its caller. -/
inductive SendError where
  | notConnected
  | transport
deriving DecidableEq

/-- The serialized outbound chat frame of `send_message` (lines 101-108). -/
structure OutFrame where
  type_ : String
  toAgentId : String
  content : String
  conversationId : Option String
deriving DecidableEq

/-- The Outbound Sender `NodeAgent.send_message` (lines 95-111): with no
websocket handle it immediately raises
`RuntimeError("Not connected to node")`; otherwise it sends the
`"message"` frame once, re-raising a transport failure (`sendOk` is
whether the underlying `websocket.send` succeeds). No retry anywhere. -/
def send_message (ws : Option Nat) (sendOk : Bool)
    (to_agent_id content : String) (conversation_id : Option String) :
    Except SendError OutFrame :=
  match ws with
  | none => .error .notConnected
  | some _ =>
      if sendOk then .ok ⟨"message", to_agent_id, content, conversation_id⟩
      else .error .transport

/-- Python's `list.remove(x)` (used by the unregister token, line 116):
removes the first occurrence of `x`, and raises `ValueError` when `x`
is not present. Handlers are compared by identity, modelled as `Nat`
ids. -/
def removeFirst : List Nat → Nat → Except Unit (List Nat)
  | [], _ => .error ()
  | h :: t, x =>
      if h = x then .ok t else (removeFirst t x).map (fun l => h :: l)

/-- The Dispatcher registration surface `NodeAgent.on_message`
(lines 113-116): appends the handler and returns the token
`lambda: self._message_handlers.remove(handler)`. The token is the
second component: a function from the handler-list state at invocation
time to the resulting state or a raised `ValueError`. -/
def on_message (handlers : List Nat) (h : Nat) :
    List Nat × (List Nat → Except Unit (List Nat)) :=
  (handlers ++ [h], fun hs => removeFirst hs h)

end Node

/-! ### Helper lemmas -/

/-- A well-formed raw record parses back to the message it came from,
whatever the import and construction times. -/
theorem Market.mkMessage_rawOf (it ct : ℚ) (m : Market.Message) :
    Market.mkMessage it ct (Market.rawOf m) = some m := rfl

/-- Processing a batch of well-formed records dispatches every message
in order and folds the watermark with `max` over their timestamps. -/
theorem Market.processBatch_rawOf (it : ℚ) (ms : List Market.Message) :
    ∀ wm : ℚ, Market.processBatch it wm (ms.map Market.rawOf)
      = (ms.foldl (fun w m => max w m.timestamp) wm, ms) := by
  induction ms with
  | nil => intro wm; rfl
  | cons m rest ih =>
      intro wm
      simp [Market.processBatch, Market.mkMessage_rawOf, ih]

/-- Folding `max` from below a strictly increasing list lands on its
last element. -/
theorem foldl_max_eq_getLast (ts : List ℚ) :
    ∀ wm : ℚ, ts.Pairwise (· < ·) → (∀ t ∈ ts, wm < t) →
      ∀ hne : ts ≠ [], ts.foldl max wm = ts.getLast hne := by
  induction ts with
  | nil => intro wm _ _ hne; exact absurd rfl hne
  | cons t rest ih =>
      intro wm hp hlb hne
      cases rest with
      | nil => simp [max_eq_right (hlb t (by simp)).le]
      | cons t' rest' =>
          have hlb2 : ∀ x ∈ t' :: rest', max wm t < x := by
            intro x hx
            exact max_lt (hlb x (List.mem_cons_of_mem _ hx))
              (List.rel_of_pairwise_cons hp hx)
          have hstep := ih (max wm t) hp.of_cons hlb2 (by simp)
          simpa [List.getLast_cons] using hstep

/-- Unfolding `pollCycle` on a failed fetch. -/
theorem Market.pollCycle_none (it wm : ℚ) :
    Market.pollCycle it wm none = (wm, []) := rfl

/-- Unfolding `pollCycle` on a successful fetch. -/
theorem Market.pollCycle_some (it wm : ℚ) (items : List Market.RawItem) :
    Market.pollCycle it wm (some items) = Market.processBatch it wm items :=
  rfl

/-- The handler loop on a list of well-behaved handlers followed by a
raising one invokes exactly the prefix and the raiser, and the raise
escapes the loop. -/
theorem Node.dispatchLoop_ok_then_raises (post : List Node.HandlerResult) :
    ∀ pre : List Node.HandlerResult,
      (∀ x ∈ pre, x = Node.HandlerResult.ok) →
      Node.dispatchLoop (pre ++ .raises :: post) = (pre.length + 1, true) := by
  intro pre
  induction pre with
  | nil => intro _; rfl
  | cons a rest ih =>
      intro hp
      have ha : a = Node.HandlerResult.ok := hp a (List.mem_cons_self a rest)
      subst ha
      have hrest := ih (fun x hx => hp x (List.mem_cons_of_mem _ hx))
      simp [Node.dispatchLoop, hrest]

/-- Looking a key up in an appended association list. -/
theorem lookup_append (s t : Market.ConvStore) (q : String) :
    (s ++ t).lookup q = ((s.lookup q).or (t.lookup q)) := by
  induction s with
  | nil => simp [List.lookup]
  | cons e rest ih =>
      by_cases h : q == e.1 <;> simp [List.lookup, h, ih]

/-- Lazy peer initialization is invisible through `histOf`: the fresh
entry it may add is the empty history, which is also the default. -/
theorem Market.histOf_initPeer (s : Market.ConvStore) (p q : String) :
    Market.histOf (Market.initPeer s p) q = Market.histOf s q := by
  by_cases h : (s.lookup p).isSome
  · simp [Market.initPeer, h]
  · unfold Market.histOf Market.initPeer
    rw [if_neg h, lookup_append]
    cases hsq : s.lookup q with
    | some v => simp
    | none => by_cases hq : q == p <;> simp [List.lookup, hq]

/-- Python's `list.remove` finds and removes the first occurrence. -/
theorem Node.removeFirst_append_self (hs : List Nat) (h : Nat)
    (hnotin : h ∉ hs) : Node.removeFirst (hs ++ [h]) h = Except.ok hs := by
  induction hs with
  | nil => simp [Node.removeFirst]
  | cons a rest ih =>
      have hne : a ≠ h := fun e => hnotin (e ▸ List.mem_cons_self a rest)
      have hrest : h ∉ rest := fun e => hnotin (List.mem_cons_of_mem a e)
      simp [Node.removeFirst, hne, ih hrest, Except.map]

/-- Python's `list.remove` raises `ValueError` when the element is
absent. -/
theorem Node.removeFirst_not_mem (hs : List Nat) (h : Nat)
    (hnotin : h ∉ hs) : Node.removeFirst hs h = Except.error () := by
  induction hs with
  | nil => rfl
  | cons a rest ih =>
      have hne : a ≠ h := fun e => hnotin (e ▸ List.mem_cons_self a rest)
      have hrest : h ∉ rest := fun e => hnotin (List.mem_cons_of_mem a e)
      simp [Node.removeFirst, hne, ih hrest, Except.map]

/-! ### Claim theorems -/

/-- C1 (claim falsified by evaluating the code): the claim says the
stored per-peer history is capped at 10 turns after `_process_message`
appends a turn pair. In the code the trim `history = history[2:]`
(agent.py line 154) only rebinds a local name and never updates
`self.conversation_history`, so after six successful exchanges from one
peer the stored history holds 12 turns, exceeding the stated cap. -/
theorem C1_storedHistoryExceedsCap :
    (Market.histOf (Market.iterateProcess [] "p1" 6) "p1").length = 12 ∧
    ¬ (Market.histOf (Market.iterateProcess [] "p1" 6) "p1").length ≤ 10 := by
  decide

/-- C2 counterexample: with the handler list `[raises, ok]`, dispatching
one message invokes only the first handler (count 1 of 2): the
well-behaved handler registered after the failing one is never invoked,
contradicting the claim. Nothing propagates to the pump
(second component `false`). -/
theorem C2_counterexample :
    Node.handle_message [.raises, .ok] = (1, false) ∧ (1 : Nat) ≠ 2 := by
  decide

/-- C2 (amended): if a handler raises, the error is contained — it never
propagates to the Inbound Pump — but dispatch of that message stops at
the failing handler: exactly the handlers up to and including it are
invoked, and handlers registered after it are not invoked for that
message. -/
theorem C2_amended (pre post : List Node.HandlerResult)
    (hpre : ∀ x ∈ pre, x = Node.HandlerResult.ok) :
    Node.handle_message (pre ++ .raises :: post) = (pre.length + 1, false) := by
  unfold Node.handle_message
  rw [Node.dispatchLoop_ok_then_raises post pre hpre]

/-- C2 amended witness at `pre = []`, `post = [ok]`. -/
theorem C2_amended_witness :
    (∀ x ∈ ([] : List Node.HandlerResult), x = Node.HandlerResult.ok) ∧
    Node.handle_message ([] ++ .raises :: [.ok]) = (0 + 1, false) :=
  ⟨by simp, C2_amended [] [.ok] (by simp)⟩

/-- C3 (claim falsified by evaluating the code): the claim says that
after `stop()` a connection-closed event observed by the pump never
triggers a reconnect. `stop()` sets `_running = False` and closes the
socket, which makes the pump's pending `recv()` raise
`ConnectionClosed`; the `except ConnectionClosed` branch (node.py lines
75-78) never re-reads `_running` and unconditionally sleeps 5 seconds
and calls `_connect()`. In the model: for any value of the running flag
at handling time — in particular `false`, i.e. after `stop()` — the
iteration's action is a reconnect attempt. -/
theorem C3_reconnectAfterStop :
    ∀ runningAtHandler : Bool,
      Node.pumpIteration true true runningAtHandler .connectionClosed
        = Node.PumpAction.sleepReconnect 5 :=
  fun _ => rfl

/-- C4 (claim falsified by evaluating the code): the claim says
reconnect retries are unbounded and no reconnect failure propagates or
terminates the pump. In the code `_connect()` re-raises its errors, and
an exception raised inside the `except ConnectionClosed` clause is not
caught by the sibling `except Exception` clause, so it escapes the
`while` loop: a single failed reconnect attempt terminates the
`_handle_messages` task with the propagated error and no further retry
occurs. -/
theorem C4_failedReconnectTerminatesPump :
    Node.reconnectOutcome false = Node.PumpFate.terminatedWithError := rfl

/-- C5: in a poll cycle whose batch consists of well-formed records that
all parse and dispatch, the watermark is folded with
`max(current, timestamp)` after each dispatch; for a batch with strictly
increasing timestamps all above the incoming watermark, the final
watermark equals the timestamp of the last message, and every message
is dispatched in order. -/
theorem C5_watermarkEqualsLastTimestamp (it wm : ℚ)
    (ms : List Market.Message) (hne : ms ≠ [])
    (hinc : (ms.map Market.Message.timestamp).Pairwise (· < ·))
    (hlb : ∀ m ∈ ms, wm < m.timestamp) :
    (Market.pollCycle it wm (some (ms.map Market.rawOf))).1
        = (ms.getLast hne).timestamp ∧
    (Market.pollCycle it wm (some (ms.map Market.rawOf))).2 = ms := by
  rw [Market.pollCycle_some, Market.processBatch_rawOf]
  refine ⟨?_, rfl⟩
  have hmapne : ms.map Market.Message.timestamp ≠ [] := by
    simpa using hne
  have hlb2 : ∀ t ∈ ms.map Market.Message.timestamp, wm < t := by
    intro t ht
    obtain ⟨m, hm, rfl⟩ := List.mem_map.mp ht
    exact hlb m hm
  have hfold := foldl_max_eq_getLast (ms.map Market.Message.timestamp) wm
    hinc hlb2 hmapne
  rw [List.foldl_map] at hfold
  rw [hfold, List.getLast_map]

/-- C5 witness: two messages with timestamps 1 and 2 above watermark 0;
the cycle ends with watermark 2 and both messages dispatched. -/
theorem C5_watermark_witness :
    (Market.pollCycle 5 0
        (some (([⟨"p1", "hi", none, 1⟩, ⟨"p2", "yo", none, 2⟩] :
          List Market.Message).map Market.rawOf))).1 = 2 := by
  have h := C5_watermarkEqualsLastTimestamp 5 0
    [⟨"p1", "hi", none, 1⟩, ⟨"p2", "yo", none, 2⟩]
    (by decide) (by decide) (by decide)
  exact h.1.trans rfl

/-- C6 counterexample: with watermark 0, a batch holding one good record
(timestamp 1) followed by a malformed record (required `content`
missing), the cycle fails on the malformed item, yet the watermark ends
at 1, not at its start-of-cycle value 0 — refuting "the Watermark is
left unchanged from its value at the start of the cycle" for
parse/validation failures. -/
theorem C6_counterexample :
    Market.mkMessage 5 0 ⟨some "p2", none, none, none⟩ = none ∧
    (Market.pollCycle 5 0 (some
        [Market.rawOf ⟨"p1", "hi", none, 1⟩,
         ⟨some "p2", none, none, none⟩])).1 = 1 ∧
    (1 : ℚ) ≠ 0 := by
  decide

/-- C6 (amended): a failure of the batch request itself or of the batch
decode skips the cycle with the watermark unchanged; a parse/validation
failure on an individual item drops that item and every item after it
in the batch, the loop continues with the next cycle, and the watermark
keeps the advances already made for the items dispatched before the
failing one (so it is unchanged only when the failing item comes
first). -/
theorem C6_amended (it wm : ℚ) (goods : List Market.Message)
    (bad : Market.RawItem) (rest : List Market.RawItem)
    (hbad : Market.mkMessage it 0 bad = none) :
    Market.pollCycle it wm none = (wm, []) ∧
    Market.pollCycle it wm (some (goods.map Market.rawOf ++ bad :: rest))
      = (goods.foldl (fun w m => max w m.timestamp) wm, goods) := by
  refine ⟨rfl, ?_⟩
  rw [Market.pollCycle_some]
  induction goods generalizing wm with
  | nil => simp [Market.processBatch, hbad]
  | cons m gs ih => simp [Market.processBatch, Market.mkMessage_rawOf, ih]

/-- C6 amended witness: one good message (timestamp 1) then the
malformed record; and a failed fetch leaves watermark 0 untouched. -/
theorem C6_amended_witness :
    Market.mkMessage 5 0 ⟨some "p2", none, none, none⟩ = none ∧
    Market.pollCycle 5 0 none = (0, []) ∧
    Market.pollCycle 5 0 (some
        (([⟨"p1", "hi", none, 1⟩] : List Market.Message).map Market.rawOf ++
          ⟨some "p2", none, none, none⟩ :: []))
      = (1, [⟨"p1", "hi", none, 1⟩]) := by
  have h := C6_amended 5 0 [⟨"p1", "hi", none, 1⟩]
    ⟨some "p2", none, none, none⟩ [] (by decide)
  exact ⟨by decide, h.1, h.2.trans (by decide)⟩

/-- C7 counterexample: register one handler (id 0) on an empty handler
list; the token's first invocation removes it (`ok []`), but invoking
the token a second time, the handler now absent, raises `ValueError`
(`error`), so the second invocation is not a no-op. -/
theorem C7_counterexample :
    (Node.on_message [] 0).2 (Node.on_message [] 0).1 = Except.ok [] ∧
    (Node.on_message [] 0).2 [] = Except.error () :=
  ⟨rfl, rfl⟩

/-- C7 (amended): the token returned by `on_message` removes exactly the
first occurrence of that handler, restoring the previous list when the
handler was not already present; invoking the token again once the
handler is absent raises a `ValueError` (Python `list.remove`) rather
than being a no-op. -/
theorem C7_amended (hs : List Nat) (h : Nat) (hnotin : h ∉ hs) :
    (Node.on_message hs h).1 = hs ++ [h] ∧
    (Node.on_message hs h).2 (Node.on_message hs h).1 = Except.ok hs ∧
    (Node.on_message hs h).2 hs = Except.error () :=
  ⟨rfl, Node.removeFirst_append_self hs h hnotin,
    Node.removeFirst_not_mem hs h hnotin⟩

/-- C7 amended witness: handler 0 registered on the list `[1]`. -/
theorem C7_amended_witness :
    (0 ∉ ([1] : List Nat)) ∧
    (Node.on_message [1] 0).1 = [1, 0] ∧
    (Node.on_message [1] 0).2 (Node.on_message [1] 0).1 = Except.ok [1] ∧
    (Node.on_message [1] 0).2 [1] = Except.error () := by
  have h := C7_amended [1] 0 (by decide)
  exact ⟨by decide, h.1.trans rfl, h.2.1, h.2.2⟩

/-- C8: `send_message` with no websocket handle fails synchronously with
the NotConnected error (`RuntimeError("Not connected to node")`,
node.py line 98), whatever the message and whatever the transport would
have done — no retry, no silent drop. -/
theorem C8_sendWhileDisconnected :
    ∀ (sendOk : Bool) (to_agent_id content : String)
      (conversation_id : Option String),
      Node.send_message none sendOk to_agent_id content conversation_id
        = Except.error Node.SendError.notConnected :=
  fun _ _ _ _ => rfl

/-- Any message parsed from a record lacking a `timestamp` field carries
the module-import-time default, regardless of when it is constructed. -/
theorem Market.mkMessage_default_timestamp (it ct : ℚ) (r : Market.RawItem)
    (ht : r.timestamp = none) (m : Market.Message)
    (hm : Market.mkMessage it ct r = some m) : m.timestamp = it := by
  rcases r with ⟨f, c, cid, t⟩
  cases t with
  | some t0 => exact Option.noConfusion ht
  | none =>
      cases f with
      | none => exact Option.noConfusion hm
      | some f0 =>
          cases c with
          | none => exact Option.noConfusion hm
          | some c0 =>
              have hb : some (⟨f0, c0, cid, it⟩ : Market.Message) = some m :=
                hm
              rw [← Option.some.inj hb]

/-- C9: two messages constructed from records without a `timestamp`
field, at arbitrarily different construction times `ct1` and `ct2`,
both carry the single default captured at module import
(`timestamp: float = time.time()`, agent.py line 16), hence equal
timestamps — which lie at or below any watermark that has advanced to
at least the import time. -/
theorem C9_defaultTimestampSharedAcrossConstructions
    (it ct1 ct2 : ℚ) (r1 r2 : Market.RawItem)
    (h1 : r1.timestamp = none) (h2 : r2.timestamp = none)
    (m1 m2 : Market.Message)
    (hm1 : Market.mkMessage it ct1 r1 = some m1)
    (hm2 : Market.mkMessage it ct2 r2 = some m2) :
    m1.timestamp = it ∧ m2.timestamp = it ∧ m1.timestamp = m2.timestamp ∧
    ∀ wm : ℚ, it ≤ wm → m1.timestamp ≤ wm := by
  have e1 := Market.mkMessage_default_timestamp it ct1 r1 h1 m1 hm1
  have e2 := Market.mkMessage_default_timestamp it ct2 r2 h2 m2 hm2
  exact ⟨e1, e2, e1.trans e2.symm, fun wm hwm => by rw [e1]; exact hwm⟩

/-- C9 witness: import time 7, constructions at times 100 and 200. -/
theorem C9_witness :
    ((⟨some "p", some "x", none, none⟩ : Market.RawItem).timestamp
      = none) ∧
    Market.mkMessage 7 100 ⟨some "p", some "x", none, none⟩
      = some ⟨"p", "x", none, 7⟩ ∧
    Market.mkMessage 7 200 ⟨some "q", some "y", none, none⟩
      = some ⟨"q", "y", none, 7⟩ ∧
    Market.Message.timestamp ⟨"p", "x", none, 7⟩
      = Market.Message.timestamp ⟨"q", "y", none, 7⟩ := by
  have h := C9_defaultTimestampSharedAcrossConstructions 7 100 200
    ⟨some "p", some "x", none, none⟩ ⟨some "q", some "y", none, none⟩
    rfl rfl ⟨"p", "x", none, 7⟩ ⟨"q", "y", none, 7⟩ rfl rfl
  exact ⟨rfl, rfl, rfl, h.2.2.1⟩

/-- C10: when the completion call of `_process_message` raises, the
reply is the fixed fallback string of line 159 and every peer's stored
history reads exactly as before the call — no turn is appended on
error (the only store effect is the invisible lazy creation of an
empty entry for the sender). -/
theorem C10_errorFallbackLeavesHistoryUnchanged
    (store : Market.ConvStore) (msg : Market.Message) :
    (Market.process_message store msg .raises).2 = Market.errorFallback ∧
    ∀ p : String,
      Market.histOf (Market.process_message store msg .raises).1 p
        = Market.histOf store p := by
  refine ⟨rfl, fun p => ?_⟩
  show Market.histOf (Market.initPeer store msg.from_agent_id) p
      = Market.histOf store p
  exact Market.histOf_initPeer store msg.from_agent_id p
